import Mathlib

/-!
Verification of the CanStack generator (source/lib/canstackgenerator.{h,cpp},
source/object/ostack.cpp).

The embedding models the generator faithfully, translating the C++ of
`CanStackGenerator` into executable Lean definitions:

* machine floats (`Float` in the source) become `ℚ`; `Int32`/`UInt32` become
  `ℤ`/`ℕ` (no arithmetic in the generator can overflow 32 bits for the sizes
  the claims quantify over);
* the external host services that the generator merely consumes — the
  deterministic RNG (`Random`), the spline sampling functions
  (`GetSplinePoint`, `GetSplineTangent`, `GetMg`) and the arc-length table
  (`SplineLengthData::UniformToNatural`) — are abstract parameters: the RNG is
  an arbitrary seed-and-draw-indexed stream, a spline is a record of arbitrary
  sampling functions.  Nothing is assumed about their values, and every
  concrete witness instantiates them with explicit closed terms;
* fallible calls return `Option`; the in-place mutation of the C++ class
  becomes explicit state passing of a `CanStackGenerator` record.
-/

/-- A 3d vector of rationals (the C4D `Vector` of the source, with `Float`
modelled as `ℚ`). -/
structure Vec3 where
  x : ℚ
  y : ℚ
  z : ℚ
deriving DecidableEq

/-- Componentwise vector addition. -/
def Vec3.add (a b : Vec3) : Vec3 := ⟨a.x + b.x, a.y + b.y, a.z + b.z⟩

/-- Scalar multiple of a vector. -/
def Vec3.smul (q : ℚ) (v : Vec3) : Vec3 := ⟨q * v.x, q * v.y, q * v.z⟩

/-- Componentwise negation. -/
def Vec3.neg (v : Vec3) : Vec3 := ⟨-v.x, -v.y, -v.z⟩

/-- The cross product (the source's `Cross(tangent, Vector(0,1,0))`). -/
def Vec3.cross (a b : Vec3) : Vec3 :=
  ⟨a.y * b.z - a.z * b.y, a.z * b.x - a.x * b.z, a.x * b.y - a.y * b.x⟩

/-- An affine transform: the C4D `Matrix` with columns `v1 v2 v3` and
translation `off`. -/
structure Mtx where
  v1 : Vec3
  v2 : Vec3
  v3 : Vec3
  off : Vec3
deriving DecidableEq

/-- Apply the linear (rotation/scale) part of a matrix to a vector. -/
def Mtx.linApply (m : Mtx) (v : Vec3) : Vec3 :=
  ((Vec3.smul v.x m.v1).add (Vec3.smul v.y m.v2)).add (Vec3.smul v.z m.v3)

/-- C4D matrix product: `(a * b)` applies `b` first, then `a`. -/
def mtxMul (a b : Mtx) : Mtx :=
  { v1 := a.linApply b.v1
    v2 := a.linApply b.v2
    v3 := a.linApply b.v3
    off := a.off.add (a.linApply b.off) }

/-- Determinant of the linear part. -/
def mtxDet (m : Mtx) : ℚ :=
  m.v1.x * (m.v2.y * m.v3.z - m.v3.y * m.v2.z)
    - m.v2.x * (m.v1.y * m.v3.z - m.v3.y * m.v1.z)
    + m.v3.x * (m.v1.y * m.v2.z - m.v2.y * m.v1.z)

/-- The identity transform (what a default-constructed C4D `Matrix` holds). -/
def mtxId : Mtx := ⟨⟨1, 0, 0⟩, ⟨0, 1, 0⟩, ⟨0, 0, 1⟩, ⟨0, 0, 0⟩⟩

/-- Inverse of an affine transform (the source's `~mg`), computed from the
adjugate; on a singular linear part the `ℚ` division by the zero determinant
yields junk, exactly like the host's numeric inverse would. -/
def mtxInv (m : Mtx) : Mtx :=
  let d := mtxDet m
  let r1 := Vec3.cross m.v2 m.v3
  let r2 := Vec3.cross m.v3 m.v1
  let r3 := Vec3.cross m.v1 m.v2
  let inv : Mtx :=
    { v1 := ⟨r1.x / d, r2.x / d, r3.x / d⟩
      v2 := ⟨r1.y / d, r2.y / d, r3.y / d⟩
      v3 := ⟨r1.z / d, r2.z / d, r3.z / d⟩
      off := ⟨0, 0, 0⟩ }
  { inv with off := (inv.linApply m.off).neg }

/-- State of the host's deterministic RNG (`Random` of the C4D library, an
external service, §4.1 of the spec): after `Init(seed)` the draws are a pure
function of the seed and the draw index, so the state is the seed plus the
number of draws made so far. -/
structure RandomState where
  seed : ℕ
  idx : ℕ
deriving DecidableEq

/-- `Random::Init(seed)`: reset the stream to the start. -/
def RandomState.init (seed : ℕ) : RandomState := ⟨seed, 0⟩

/-- The ambient external services: the RNG's value stream (`Get11`, a scalar
in `[-1,1]` for each seed and draw index — arbitrary here) and `HPBToMatrix`
applied to a heading-only rotation vector (trigonometry is external; the
generator only forwards the angle). -/
structure Env where
  rand11 : ℕ → ℕ → ℚ
  hpbToMatrix : ℚ → Mtx

/-- `Random::Get11()`: the next value of the stream, advancing the state. -/
def RandomState.get11 (env : Env) (r : RandomState) : ℚ × RandomState :=
  (env.rand11 r.seed r.idx, ⟨r.seed, r.idx + 1⟩)

/-- A path spline as the generator consumes it (external curve service, §6 of
the spec): its global transform `GetMg()`, the point/tangent samplers, the
arc-length reparametrization `SplineLengthData::UniformToNatural`, and whether
allocating/initializing the `SplineLengthData` for it succeeds. -/
structure Spline where
  mg : Mtx
  initOk : Bool
  uniformToNatural : ℚ → ℚ
  point : ℚ → Vec3
  tangent : ℚ → Vec3

/-- `StackParameters` (canstackgenerator.h).  The shipped header declares
`_randomPos`/`_randomRot` while the .cpp additionally reads `_randomOffX` and
`_randomOffZ`; the record carries the union of the declared and the used
fields.  `_basePath` is the optional path spline (`nullptr` ↦ `none`). -/
structure StackParameters where
  baseCount : ℤ
  baseLength : ℚ
  rowCount : ℤ
  rowHeight : ℚ
  randomSeed : ℕ
  randomPos : ℚ
  randomRot : ℚ
  randomOffX : ℚ
  randomOffZ : ℚ
  basePath : Option Spline

/-- The default-constructed `StackParameters()`: all numeric fields zero, no
spline. -/
def defaultParams : StackParameters :=
  { baseCount := 0, baseLength := 0, rowCount := 0, rowHeight := 0,
    randomSeed := 0, randomPos := 0, randomRot := 0, randomOffX := 0,
    randomOffZ := 0, basePath := none }

instance : Inhabited StackParameters := ⟨defaultParams⟩

/-- `operator ==` on `StackParameters` (canstackgenerator.h, lines 61-64): it
compares `_baseCount`, `_baseLength`, `_rowCount`, `_rowHeight`,
`_randomSeed`, `_randomPos` and `_randomRot` — and no other field. -/
def StackParameters.eq (x1 x2 : StackParameters) : Bool :=
  (x1.baseCount == x2.baseCount) && (x1.baseLength == x2.baseLength) &&
  (x1.rowCount == x2.rowCount) && (x1.rowHeight == x2.rowHeight) &&
  (x1.randomSeed == x2.randomSeed) && (x1.randomPos == x2.randomPos) &&
  (x1.randomRot == x2.randomRot)

/-- One slot of the stack's row arrays: it holds the item's matrix (the
source's per-item `mg`). -/
structure StackItem where
  mg : Mtx
deriving DecidableEq

/-- A freshly (default-)constructed slot holds the identity matrix. -/
def dfltItem : StackItem := ⟨mtxId⟩

instance : Inhabited StackItem := ⟨dfltItem⟩

/-- The generator's state: the stack data array (rows of items), the stored
parameters, the RNG and the initialized flag. -/
structure CanStackGenerator where
  array : List (List StackItem)
  params : StackParameters
  rnd : RandomState
  initialized : Bool

/-- A fresh generator: empty array, default parameters, flag down. -/
def dfltGen : CanStackGenerator :=
  { array := [], params := defaultParams, rnd := RandomState.init 0,
    initialized := false }

instance : Inhabited CanStackGenerator := ⟨dfltGen⟩

/-- `BaseArray::Resize` on one array: keep the first `n` existing elements,
default-construct the rest. -/
def resizeList (xs : List α) (n : ℕ) (d : α) : List α :=
  xs.take n ++ List.replicate (n - xs.length) d

/-- The row-resizing loop of `CanStackGenerator::ResizeStack`: row `r`
(0-indexed from `r0`) is resized to `baseCount - r` slots. -/
def resizeRows (b : ℤ) : ℕ → List (List StackItem) → List (List StackItem)
  | _, [] => []
  | r, row :: rest => resizeList row (b - (r : ℤ)).toNat dfltItem :: resizeRows b (r + 1) rest

/-- `CanStackGenerator::ResizeStack` (canstackgenerator.cpp, 197-213): resize
the outer array to `Min(baseCount, rowCount)` rows (failing on a negative
requested size, as the host array would), then resize row `r` to
`_params._baseCount - r` items.  The loop's extra guard `rowIndex < rowCount`
is redundant: the outer size is already at most `rowCount`. -/
def CanStackGenerator.ResizeStack (g : CanStackGenerator) (baseCount rowCount : ℤ) :
    Option CanStackGenerator :=
  if min baseCount rowCount < 0 then none
  else
    some { g with
      array := resizeRows g.params.baseCount 0
        (resizeList g.array (min baseCount rowCount).toNat []) }

/-- `CanStackGenerator::InitStack` (canstackgenerator.cpp, 4-31): reseed the
RNG unconditionally; if the new parameters compare equal to the stored ones,
do nothing else and succeed; otherwise reset the stored parameters and the
flag, reject `baseCount < 1`, store the parameters, resize the arrays and
raise the flag. -/
def CanStackGenerator.InitStack (g : CanStackGenerator) (params : StackParameters) :
    CanStackGenerator × Bool :=
  let g1 := { g with rnd := RandomState.init params.randomSeed }
  if StackParameters.eq params g1.params then (g1, true)
  else
    let g2 := { g1 with params := defaultParams, initialized := false }
    if params.baseCount < 1 then (g2, false)
    else
      let g3 := { g2 with params := params }
      match g3.ResizeStack g3.params.baseCount g3.params.rowCount with
      | none => (g3, false)
      | some g4 => ({ g4 with initialized := true }, true)

/-- The divisor of the spline-mode spacing: `relDistance` is
`1.0 / (Float)(_params._baseCount - 1)` (canstackgenerator.cpp, line 62), so
this is the quantity the source divides by. -/
def relDistanceDenom (p : StackParameters) : ℚ := (p.baseCount : ℚ) - 1

/-- The distance fraction handed to `UniformToNatural` for row `r`, item `i`:
`relDistance * itemIndex + relDistance * 0.5 * rowIndex` (line 87). -/
def curveU (relDistance : ℚ) (r i : ℕ) : ℚ :=
  relDistance * (i : ℚ) + relDistance * (1 / 2) * (r : ℚ)

/-- The local-space matrix of a spline-mode item before the premultiplication
by the spline's global transform (canstackgenerator.cpp, 80-98): the random
heading rotation, positioned at the reparametrized curve sample, raised by
`rowHeight * rowIndex`, jittered sideways along the cross tangent and along
the tangent; `h`, `dx`, `dz` are the three RNG draws. -/
def curveItemLocal (env : Env) (p : StackParameters) (s : Spline)
    (relDistance : ℚ) (r i : ℕ) (h dx dz : ℚ) : Mtx :=
  let relOffset := s.uniformToNatural (curveU relDistance r i)
  let sp := s.point relOffset
  let st := s.tangent relOffset
  let sct := Vec3.cross st ⟨0, 1, 0⟩
  let m0 := env.hpbToMatrix (h * p.randomRot)
  { m0 with
    off := ((sp.add ⟨0, p.rowHeight * (r : ℚ), 0⟩).add
      (Vec3.smul (dx * p.randomOffX) sct)).add (Vec3.smul (dz * p.randomOffZ) st) }

/-- One spline-mode item of `GenerateStack`'s loop body: three draws in source
order (heading, across, along), the local matrix, then
`item->mg = splineMg * item->mg` (line 101). -/
def curveItem (env : Env) (p : StackParameters) (s : Spline) (relDistance : ℚ)
    (r i : ℕ) (rnd : RandomState) : StackItem × RandomState :=
  let h := RandomState.get11 env rnd
  let dx := RandomState.get11 env h.2
  let dz := RandomState.get11 env dx.2
  (⟨mtxMul s.mg (curveItemLocal env p s relDistance r i h.1 dx.1 dz.1)⟩, dz.2)

/-- One straight-mode item of `GenerateStack`'s loop body
(canstackgenerator.cpp, 80 and 106): the heading draw, then the position
`(Get11()*_randomOffX, _rowHeight*rowIndex,
distance*itemIndex + distance*rowIndex*0.5 + Get11()*_randomOffZ)`. -/
def straightItem (env : Env) (p : StackParameters) (distance : ℚ)
    (r i : ℕ) (rnd : RandomState) : StackItem × RandomState :=
  let h := RandomState.get11 env rnd
  let m0 := env.hpbToMatrix (h.1 * p.randomRot)
  let dx := RandomState.get11 env h.2
  let dz := RandomState.get11 env dx.2
  (⟨{ m0 with
      off := ⟨dx.1 * p.randomOffX, p.rowHeight * (r : ℚ),
        distance * (i : ℚ) + distance * (r : ℚ) * (1 / 2) + dz.1 * p.randomOffZ⟩ }⟩,
    dz.2)

/-- The inner loop of `GenerateStack`: fill the items of one row (row index
`r`, item index counting from `i`), threading the RNG left to right. -/
def genItems (f : ℕ → ℕ → RandomState → StackItem × RandomState) (r : ℕ) :
    ℕ → List StackItem → RandomState → List StackItem × RandomState
  | _, [], rnd => ([], rnd)
  | i, _ :: rest, rnd =>
    let a := f r i rnd
    let tl := genItems f r (i + 1) rest a.2
    (a.1 :: tl.1, tl.2)

/-- The outer loop of `GenerateStack`: rows outermost (row index counting from
`r`), items innermost, RNG threaded through in that order. -/
def genRows (f : ℕ → ℕ → RandomState → StackItem × RandomState) :
    ℕ → List (List StackItem) → RandomState → List (List StackItem) × RandomState
  | _, [], rnd => ([], rnd)
  | r, row :: rest, rnd =>
    let a := genItems f r 0 row rnd
    let tl := genRows f (r + 1) rest a.2
    (a.1 :: tl.1, tl.2)

/-- The per-cell generation function `GenerateStack` uses, by mode: with a
path spline, the spline-mode body with
`relDistance = 1.0 / (Float)(_baseCount - 1)`; without one, the straight body
with `distance = _baseLength / (Float)_baseCount`. -/
def cellGen (env : Env) (p : StackParameters) : ℕ → ℕ → RandomState → StackItem × RandomState :=
  match p.basePath with
  | some s => curveItem env p s (1 / relDistanceDenom p)
  | none => straightItem env p (p.baseLength / (p.baseCount : ℚ))

/-- `CanStackGenerator::GenerateStack` (canstackgenerator.cpp, 34-112): fail
when not initialized; in spline mode fail when the `SplineLengthData` cannot
be allocated or initialized; then walk the stored array row by row, item by
item, overwriting every slot. -/
def CanStackGenerator.GenerateStack (env : Env) (g : CanStackGenerator) :
    Option CanStackGenerator :=
  if g.initialized = false then none
  else
    match g.params.basePath with
    | some s =>
      if s.initOk = false then none
      else
        let res := genRows (curveItem env g.params s (1 / relDistanceDenom g.params)) 0 g.array g.rnd
        some { g with array := res.1, rnd := res.2 }
    | none =>
      let res := genRows (straightItem env g.params (g.params.baseLength / (g.params.baseCount : ℚ))) 0 g.array g.rnd
      some { g with array := res.1, rnd := res.2 }

/-- One `configure` + `generate` run on a fresh generator, as the host object
drives it (ostack.cpp, 224-229): `InitStack`, bail out on failure, then
`GenerateStack`. -/
def runFresh (env : Env) (p : StackParameters) : Option CanStackGenerator :=
  let r := CanStackGenerator.InitStack dfltGen p
  if r.2 = true then r.1.GenerateStack env else none

/-- The template child object as `BuildStackGeometry` inspects it: whether it
is an instance object with the render-instance flag, its link target and its
own identity (objects are named by numeric ids in the model). -/
structure TmplObj where
  isInstanceObj : Bool
  renderInstance : Bool
  objLink : Option ℕ
  selfId : ℕ
deriving DecidableEq

/-- The template resolution of `BuildStackGeometry` (canstackgenerator.cpp,
124-132): a render-instance child is dereferenced to its linked object
(failing when the link is empty); any other child is cloned itself. -/
def resolveClone (o : TmplObj) : Option ℕ :=
  if o.isInstanceObj && o.renderInstance then o.objLink else some o.selfId

/-- An output node under the result parent: either a full clone of the
resolved source object, or a render instance linking to a previously created
output (identified by its position in the output list), each carrying the
local matrix that was set on it. -/
inductive StackNode where
  | clone (src : ℕ) (ml : Mtx)
  | inst (link : Option ℕ) (ml : Mtx)
deriving DecidableEq

/-- Whether an output node is a full clone. -/
def StackNode.isClone : StackNode → Bool
  | .clone _ _ => true
  | .inst _ _ => false

/-- The render-instance link of an output node (`none` for clones). -/
def StackNode.linksTo : StackNode → Option ℕ
  | .clone _ _ => none
  | .inst l _ => l

/-- The source object a full clone duplicates (`none` for instances). -/
def StackNode.srcOf : StackNode → Option ℕ
  | .clone s _ => some s
  | .inst _ _ => none

/-- The local matrix set on an output node. -/
def StackNode.ml : StackNode → Mtx
  | .clone _ m => m
  | .inst _ m => m

/-- The item loop of `BuildStackGeometry` over one row (canstackgenerator.cpp,
150-189), threading the created-item counter and the pointer to the first
created clone: with render instances on and a nonzero counter the new node is
an instance linking to the first clone, otherwise a clone of the source (which
becomes the new first clone); the matrix applied is `invertedMg * item->mg`
in spline mode and `item->mg` directly otherwise. -/
def buildItems (src : ℕ) (useRI : Bool) (curveMode : Bool) (invMg : Mtx) :
    List StackItem → ℕ → Option ℕ → List StackNode × ℕ × Option ℕ
  | [], count, first => ([], count, first)
  | item :: rest, count, first =>
    let ml := if curveMode then mtxMul invMg item.mg else item.mg
    let step : StackNode × Option ℕ :=
      if useRI && 0 < count then (StackNode.inst first ml, first)
      else (StackNode.clone src ml, some count)
    let tl := buildItems src useRI curveMode invMg rest (count + 1) step.2
    (step.1 :: tl.1, tl.2)

/-- The row loop of `BuildStackGeometry`: rows in order, each row's outputs
appended under the parent in iteration order. -/
def buildRows (src : ℕ) (useRI : Bool) (curveMode : Bool) (invMg : Mtx) :
    List (List StackItem) → ℕ → Option ℕ → List StackNode × ℕ × Option ℕ
  | [], count, first => ([], count, first)
  | row :: rest, count, first =>
    let a := buildItems src useRI curveMode invMg row count first
    let tl := buildRows src useRI curveMode invMg rest a.2.1 a.2.2
    (a.1 ++ tl.1, tl.2)

/-- `CanStackGenerator::BuildStackGeometry` (canstackgenerator.cpp, 115-194):
resolve the object to clone (failing when a render-instance child has no
link), compute `invertedMg = ~mg`, then walk the stack array creating one
output per item; the result is the children of the returned parent null, in
creation order. -/
def CanStackGenerator.BuildStackGeometry (g : CanStackGenerator) (originalObject : TmplObj)
    (mg : Mtx) (useRenderInstances : Bool) : Option (List StackNode) :=
  match resolveClone originalObject with
  | none => none
  | some src =>
    some (buildRows src useRenderInstances g.params.basePath.isSome (mtxInv mg)
      g.array 0 none).1

/-- Total number of items over all rows of a stack array. -/
def listTotal (arr : List (List StackItem)) : ℕ := (arr.map List.length).sum

/-- Number of items strictly before row `r` in row-major order. -/
def prefixTotal (arr : List (List StackItem)) (r : ℕ) : ℕ :=
  ((arr.take r).map List.length).sum

/-- The row lengths `InitStack` shapes the array to: `min(baseCount, rowCount)`
rows, row `r` holding `baseCount - r` items. -/
def shapeList (p : StackParameters) : List ℕ :=
  (List.range (min p.baseCount p.rowCount).toNat).map
    (fun (r : ℕ) => (p.baseCount - (r : ℤ)).toNat)

/-- A generator whose array has exactly the row lengths its stored parameters
prescribe (true of a fresh generator and after every successful
`InitStack`). -/
def goodShape (p : StackParameters) (arr : List (List StackItem)) : Prop :=
  arr.map List.length = shapeList p

/-- `f` consumes exactly three RNG draws per cell, whatever the cell: the
property both loop bodies of `GenerateStack` have. -/
def drawsAdvance (f : ℕ → ℕ → RandomState → StackItem × RandomState) : Prop :=
  ∀ r i s j, (f r i ⟨s, j⟩).2 = ⟨s, j + 3⟩

/-- A concrete external environment for witnesses: a constant RNG stream and
an `HPBToMatrix` that ignores its angle. -/
def env0 : Env := ⟨fun _ _ => 0, fun _ => mtxId⟩

/-- A concrete spline for witnesses: identity global transform, identity
reparametrization, constant samplers. -/
def spline0 : Spline :=
  { mg := mtxId, initOk := true, uniformToNatural := fun u => u,
    point := fun _ => ⟨0, 0, 0⟩, tangent := fun _ => ⟨0, 0, 1⟩ }

/-- A concrete valid straight-mode configuration: two items on the base row,
two rows, no randomness. -/
def p0 : StackParameters :=
  { baseCount := 2, baseLength := 2, rowCount := 2, rowHeight := 1,
    randomSeed := 0, randomPos := 0, randomRot := 0, randomOffX := 0,
    randomOffZ := 0, basePath := none }

/-- `p0` with the invalid `baseCount = 0`. -/
def pBad : StackParameters := { p0 with baseCount := 0 }

/-- `p0` with a path spline attached — it differs from `p0` only in the curve
reference. -/
def pC4 : StackParameters := { p0 with basePath := some spline0 }

/-- A single-can configuration on a spline: the input on which spline-mode
generation divides by `baseCount - 1 = 0`. -/
def pC6 : StackParameters :=
  { baseCount := 1, baseLength := 0, rowCount := 1, rowHeight := 1,
    randomSeed := 0, randomPos := 0, randomRot := 0, randomOffX := 0,
    randomOffZ := 0, basePath := some spline0 }

/-- A concrete template child object for assembly witnesses: a plain object
(not a render instance) with id 7. -/
def tmpl0 : TmplObj :=
  { isInstanceObj := false, renderInstance := false, objLink := none, selfId := 7 }

/-- A concrete generator state with a two-row stack, for assembly
witnesses. -/
def gBuild : CanStackGenerator :=
  { dfltGen with array := [[dfltItem, dfltItem], [dfltItem]], params := p0 }

/-- The generator state a fresh `configure` + `generate` on `p0` under `env0`
produces (the concrete layout the generation witnesses inspect). -/
def gRun0 : CanStackGenerator := (runFresh env0 p0).getD dfltGen

/-- The concrete assembly output on `gBuild` without render instances. -/
def nsBuild : List StackNode :=
  (gBuild.BuildStackGeometry tmpl0 mtxId false).getD []

/-- What the header's `operator ==` actually decides: equality of exactly the
seven compared fields. -/
theorem StackParameters.eq_iff (x1 x2 : StackParameters) :
    StackParameters.eq x1 x2 = true ↔
      (x1.baseCount = x2.baseCount ∧ x1.baseLength = x2.baseLength ∧
       x1.rowCount = x2.rowCount ∧ x1.rowHeight = x2.rowHeight ∧
       x1.randomSeed = x2.randomSeed ∧ x1.randomPos = x2.randomPos ∧
       x1.randomRot = x2.randomRot) := by
  simp [StackParameters.eq, Bool.and_eq_true, and_assoc]

/-- The comparator accepts a configuration against itself. -/
theorem StackParameters.eq_refl (p : StackParameters) : StackParameters.eq p p = true := by
  simp [StackParameters.eq_iff]

/-- `InitStack` on a configuration comparing equal to the stored one: only the
RNG is reseeded, and the call succeeds. -/
theorem initStack_noop (g : CanStackGenerator) (p : StackParameters)
    (heq : StackParameters.eq p g.params = true) :
    g.InitStack p = ({ g with rnd := RandomState.init p.randomSeed }, true) := by
  simp [CanStackGenerator.InitStack, heq]

/-- `InitStack` on a changed configuration with `baseCount < 1`: the stored
parameters are reset to the defaults, the flag is cleared, the array is left
as it was, and the call fails. -/
theorem initStack_invalid (g : CanStackGenerator) (p : StackParameters)
    (hne : StackParameters.eq p g.params = false) (hb : p.baseCount < 1) :
    g.InitStack p =
      ({ g with
          rnd := RandomState.init p.randomSeed
          params := defaultParams
          initialized := false }, false) := by
  simp [CanStackGenerator.InitStack, hne, hb]

/-- `InitStack` on a changed valid configuration: the parameters are stored,
the arrays reshaped, the flag raised. -/
theorem initStack_rebuild (g : CanStackGenerator) (p : StackParameters)
    (hne : StackParameters.eq p g.params = false) (hb : 1 ≤ p.baseCount)
    (hrc : 0 ≤ p.rowCount) :
    g.InitStack p =
      ({ array := resizeRows p.baseCount 0
            (resizeList g.array (min p.baseCount p.rowCount).toNat []),
          params := p, rnd := RandomState.init p.randomSeed,
          initialized := true }, true) := by
  have hmin : ¬ min p.baseCount p.rowCount < 0 := by omega
  have hb' : ¬ p.baseCount < 1 := by omega
  simp [CanStackGenerator.InitStack, hne, hb', CanStackGenerator.ResizeStack, hmin]

/-- Inversion for a successful `InitStack`: either the no-op path was taken,
or the rebuild path with a valid configuration. -/
theorem initStack_true_cases (g : CanStackGenerator) (p : StackParameters)
    (hacc : (g.InitStack p).2 = true) :
    (StackParameters.eq p g.params = true ∧
      (g.InitStack p).1 = { g with rnd := RandomState.init p.randomSeed }) ∨
    (StackParameters.eq p g.params = false ∧ 1 ≤ p.baseCount ∧ 0 ≤ p.rowCount ∧
      (g.InitStack p).1 =
        { array := resizeRows p.baseCount 0
            (resizeList g.array (min p.baseCount p.rowCount).toNat []),
          params := p, rnd := RandomState.init p.randomSeed,
          initialized := true }) := by
  by_cases heq : StackParameters.eq p g.params = true
  · exact Or.inl ⟨heq, by rw [initStack_noop g p heq]⟩
  · have hne : StackParameters.eq p g.params = false := by
      simpa using heq
    by_cases hb : p.baseCount < 1
    · rw [initStack_invalid g p hne hb] at hacc
      simp at hacc
    · have hb' : 1 ≤ p.baseCount := by omega
      by_cases hrc : 0 ≤ p.rowCount
      · exact Or.inr ⟨hne, hb', hrc, by rw [initStack_rebuild g p hne hb' hrc]⟩
      · have hmin : min p.baseCount p.rowCount < 0 := by omega
        simp [CanStackGenerator.InitStack, hne, hb,
          CanStackGenerator.ResizeStack, hmin] at hacc

/-- `BaseArray::Resize` produces exactly the requested length. -/
theorem length_resizeList (xs : List α) (n : ℕ) (d : α) :
    (resizeList xs n d).length = n := by
  simp [resizeList]
  omega

/-- The row lengths produced by the row-resizing loop. -/
theorem map_length_resizeRows (b : ℤ) :
    ∀ (xs : List (List StackItem)) (r0 : ℕ),
      (resizeRows b r0 xs).map List.length =
        (List.range xs.length).map (fun k => (b - ((r0 + k : ℕ) : ℤ)).toNat) := by
  intro xs
  induction xs with
  | nil => intro r0; simp [resizeRows]
  | cons row rest ih =>
    intro r0
    simp only [resizeRows, List.map_cons, List.length_cons, List.range_succ_eq_map,
      List.map_map, length_resizeList, ih (r0 + 1)]
    refine congrArg₂ List.cons (by omega) ?_
    apply List.map_congr_left
    intro k hk
    simp only [Function.comp]
    congr 2
    omega

/-- After a successful `InitStack` on a well-shaped generator, the array's row
lengths are the ones the new configuration prescribes. -/
theorem initStack_shape (g : CanStackGenerator) (p : StackParameters)
    (hgood : goodShape g.params g.array) (hacc : (g.InitStack p).2 = true) :
    ((g.InitStack p).1).array.map List.length = shapeList p := by
  rcases initStack_true_cases g p hacc with ⟨heq, h1⟩ | ⟨-, -, -, h1⟩
  · rw [h1]
    rcases (StackParameters.eq_iff p g.params).mp heq with ⟨hb, -, hrc, -⟩
    unfold goodShape at hgood
    simpa [shapeList, hb, hrc] using hgood
  · rw [h1]
    simp only [map_length_resizeRows, length_resizeList, shapeList]
    apply List.map_congr_left
    intro k hk
    congr 2
    omega

/-- Sums over `List.range` agree with `Finset.range` sums. -/
theorem listRangeMapSum (f : ℕ → ℕ) (n : ℕ) :
    ((List.range n).map f).sum = ∑ i in Finset.range n, f i := by
  induction n with
  | zero => simp
  | succ m ih => simp [List.range_succ, Finset.sum_range_succ, ih]

/-- Gauss: the total of the strictly decreasing row sizes `n, n-1, ..., 1`. -/
theorem sumDescRange (n : ℕ) :
    (∑ i in Finset.range n, (n - i)) = n * (n + 1) / 2 := by
  have hrefl : (∑ i in Finset.range n, (n - i)) = ∑ i in Finset.range n, (i + 1) := by
    rw [← Finset.sum_range_reflect (fun i => i + 1) n]
    apply Finset.sum_congr rfl
    intro i hi
    have : i < n := Finset.mem_range.mp hi
    omega
  have hid2 : (∑ i in Finset.range n, i) * 2 = n * (n - 1) := Finset.sum_range_id_mul_two n
  have hsplit : (∑ i in Finset.range n, (i + 1)) =
      (∑ i in Finset.range n, i) + n := by
    rw [Finset.sum_add_distrib]
    simp
  rw [hrefl, hsplit]
  rcases n with _ | m
  · simp
  · have hm2 : (∑ i in Finset.range (m + 1), i) * 2 = (m + 1) * m := by
      have h := Finset.sum_range_id_mul_two (m + 1)
      simpa using h
    have h2 : (m + 1) * (m + 1 + 1) = (m + 1) * m + 2 * (m + 1) := by ring
    omega

/-- `GenerateStack` fails on an uninitialized generator. -/
theorem generate_not_init (env : Env) (g : CanStackGenerator)
    (h : g.initialized = false) : g.GenerateStack env = none := by
  simp [CanStackGenerator.GenerateStack, h]

/-- `GenerateStack` in straight mode: the loop runs with the straight-line
item body and the stored parameters. -/
theorem generate_straight (env : Env) (g : CanStackGenerator)
    (hinit : g.initialized = true) (hnone : g.params.basePath = none) :
    g.GenerateStack env =
      some { g with
        array := (genRows (straightItem env g.params
          (g.params.baseLength / (g.params.baseCount : ℚ))) 0 g.array g.rnd).1
        rnd := (genRows (straightItem env g.params
          (g.params.baseLength / (g.params.baseCount : ℚ))) 0 g.array g.rnd).2 } := by
  simp [CanStackGenerator.GenerateStack, hinit, hnone]

/-- `GenerateStack` in spline mode with a healthy arc-length table: the loop
runs with the spline item body. -/
theorem generate_curve (env : Env) (g : CanStackGenerator) (s : Spline)
    (hinit : g.initialized = true) (hsome : g.params.basePath = some s)
    (hok : s.initOk = true) :
    g.GenerateStack env =
      some { g with
        array := (genRows (curveItem env g.params s
          (1 / relDistanceDenom g.params)) 0 g.array g.rnd).1
        rnd := (genRows (curveItem env g.params s
          (1 / relDistanceDenom g.params)) 0 g.array g.rnd).2 } := by
  simp [CanStackGenerator.GenerateStack, hinit, hsome, hok]

/-- The straight-mode loop body consumes exactly three draws per item. -/
theorem straight_advance (env : Env) (p : StackParameters) (d : ℚ) :
    drawsAdvance (straightItem env p d) := by
  intro r i s j
  simp [straightItem, RandomState.get11]

/-- The spline-mode loop body consumes exactly three draws per item. -/
theorem curve_advance (env : Env) (p : StackParameters) (s : Spline) (rd : ℚ) :
    drawsAdvance (curveItem env p s rd) := by
  intro r i sd j
  simp [curveItem, RandomState.get11]

/-- Full description of one row's generation: item `k` is produced by the
body applied to the draws starting at index `j + 3k`, and the row consumes
`3 * length` draws. -/
theorem genItems_eq (f : ℕ → ℕ → RandomState → StackItem × RandomState)
    (hf : drawsAdvance f) (r : ℕ) :
    ∀ (xs : List StackItem) (i0 s j : ℕ),
      genItems f r i0 xs ⟨s, j⟩ =
        ((List.range xs.length).map (fun k => (f r (i0 + k) ⟨s, j + 3 * k⟩).1),
          ⟨s, j + 3 * xs.length⟩) := by
  intro xs
  induction xs with
  | nil => intro i0 s j; simp [genItems]
  | cons a rest ih =>
    intro i0 s j
    simp only [genItems, hf r i0 s j, ih (i0 + 1) s (j + 3), List.length_cons,
      List.range_succ_eq_map, List.map_cons, List.map_map]
    refine congrArg₂ Prod.mk (congrArg₂ List.cons (by simp) ?_) (by simp; omega)
    apply List.map_congr_left
    intro k hk
    simp only [Function.comp]
    congr 2
    · omega
    · simp
      omega

/-- The row lengths survive generation untouched. -/
theorem genRows_shape (f : ℕ → ℕ → RandomState → StackItem × RandomState) :
    ∀ (rows : List (List StackItem)) (r0 : ℕ) (rnd : RandomState),
      (genRows f r0 rows rnd).1.map List.length = rows.map List.length := by
  have hitems : ∀ (r i0 : ℕ) (xs : List StackItem) (rnd : RandomState),
      (genItems f r i0 xs rnd).1.length = xs.length := by
    intro r i0 xs
    induction xs generalizing i0 with
    | nil => intro rnd; simp [genItems]
    | cons a rest ih => intro rnd; simp [genItems, ih]
  intro rows
  induction rows with
  | nil => intro r0 rnd; simp [genRows]
  | cons row rest ih =>
    intro r0 rnd
    simp [genRows, hitems, ih]

/-- Where each cell's RNG draws come from: generating from draw index `j`,
the cell at row `r`, item `i` is produced by the loop body applied at draw
index `j + 3 * (number of cells before it in row-major, item-minor order)`.
This pins down the iteration order of `GenerateStack`'s loops. -/
theorem genRows_getD (f : ℕ → ℕ → RandomState → StackItem × RandomState)
    (hf : drawsAdvance f) :
    ∀ (rows : List (List StackItem)) (r0 s j r i : ℕ),
      r < rows.length → i < (rows.getD r []).length →
      (((genRows f r0 rows ⟨s, j⟩).1.getD r []).getD i dfltItem) =
        (f (r0 + r) i ⟨s, j + 3 * ((((rows.take r).map List.length).sum) + i)⟩).1 := by
  intro rows
  induction rows with
  | nil =>
    intro r0 s j r i hr hi
    simp at hr
  | cons row rest ih =>
    intro r0 s j r i hr hi
    rcases r with _ | rr
    · simp only [genRows, genItems_eq f hf r0 row 0 s j, List.getD_cons_zero,
        List.take_zero, List.map_nil, List.sum_nil, Nat.zero_add, Nat.add_zero]
      simp only [List.getD_cons_zero] at hi
      rw [List.getD_eq_getElem _ _ (by simpa using hi)]
      simp
    · simp only [genRows, genItems_eq f hf r0 row 0 s j, List.getD_cons_succ]
      simp only [List.getD_cons_succ] at hi
      simp only [List.length_cons, Nat.succ_lt_succ_iff] at hr
      rw [ih (r0 + 1) s (j + 3 * row.length) rr i hr hi]
      simp only [List.take_succ_cons, List.map_cons, List.sum_cons]
      have e1 : r0 + 1 + rr = r0 + (rr + 1) := by omega
      have e2 : j + 3 * row.length + 3 * ((((rest.take rr).map List.length).sum) + i)
          = j + 3 * ((row.length + (((rest.take rr).map List.length).sum)) + i) := by omega
      rw [e1, e2]

/-- Splitting the assembler's item loop over an appended list. -/
theorem buildItems_append (src : ℕ) (useRI curveMode : Bool) (invMg : Mtx) :
    ∀ (xs ys : List StackItem) (c : ℕ) (f0 : Option ℕ),
      buildItems src useRI curveMode invMg (xs ++ ys) c f0 =
        ((buildItems src useRI curveMode invMg xs c f0).1 ++
          (buildItems src useRI curveMode invMg ys
            (buildItems src useRI curveMode invMg xs c f0).2.1
            (buildItems src useRI curveMode invMg xs c f0).2.2).1,
          (buildItems src useRI curveMode invMg ys
            (buildItems src useRI curveMode invMg xs c f0).2.1
            (buildItems src useRI curveMode invMg xs c f0).2.2).2) := by
  intro xs
  induction xs with
  | nil => intro ys c f0; simp [buildItems]
  | cons a rest ih =>
    intro ys c f0
    simp only [List.cons_append, buildItems, List.append_eq, ih, List.nil_append]

/-- The assembler's row loop is its item loop over the flattened stack: the
outputs appear under the parent in row-major, item-minor order. -/
theorem buildRows_join (src : ℕ) (useRI curveMode : Bool) (invMg : Mtx) :
    ∀ (rows : List (List StackItem)) (c : ℕ) (f0 : Option ℕ),
      buildRows src useRI curveMode invMg rows c f0 =
        buildItems src useRI curveMode invMg rows.flatten c f0 := by
  intro rows
  induction rows with
  | nil => intro c f0; simp [buildRows, buildItems]
  | cons row rest ih =>
    intro c f0
    simp only [buildRows, ih, List.flatten_cons, buildItems_append]

/-- The applied matrices, in order: `invertedMg * item->mg` in spline mode,
the stored `item->mg` in straight mode — one per item, item order kept. -/
theorem buildItems_ml (src : ℕ) (useRI curveMode : Bool) (invMg : Mtx) :
    ∀ (xs : List StackItem) (c : ℕ) (f0 : Option ℕ),
      (buildItems src useRI curveMode invMg xs c f0).1.map StackNode.ml =
        xs.map (fun it => if curveMode then mtxMul invMg it.mg else it.mg) := by
  intro xs
  induction xs with
  | nil => intro c f0; simp [buildItems]
  | cons a rest ih =>
    intro c f0
    simp only [buildItems, List.map_cons, ih]
    by_cases h : useRI && 0 < c
    · simp [h, StackNode.ml]
    · simp [h, StackNode.ml]

/-- Without render instances every output is a full clone of the resolved
source object. -/
theorem buildItems_noRI (src : ℕ) (curveMode : Bool) (invMg : Mtx) :
    ∀ (xs : List StackItem) (c : ℕ) (f0 : Option ℕ),
      (buildItems src false curveMode invMg xs c f0).1 =
        xs.map (fun it => StackNode.clone src
          (if curveMode then mtxMul invMg it.mg else it.mg)) := by
  intro xs
  induction xs with
  | nil => intro c f0; simp [buildItems]
  | cons a rest ih =>
    intro c f0
    simp [buildItems, ih]

/-- With render instances and a positive counter every further output is an
instance linking to the current first clone, which never changes. -/
theorem buildItems_RI_pos (src : ℕ) (curveMode : Bool) (invMg : Mtx) :
    ∀ (xs : List StackItem) (c : ℕ) (f0 : Option ℕ), 1 ≤ c →
      (buildItems src true curveMode invMg xs c f0).1 =
        xs.map (fun it => StackNode.inst f0
          (if curveMode then mtxMul invMg it.mg else it.mg)) := by
  intro xs
  induction xs with
  | nil => intro c f0 hc; simp [buildItems]
  | cons a rest ih =>
    intro c f0 hc
    have h0 : 0 < c := by omega
    simp [buildItems, h0, ih (c + 1) f0 (by omega)]

/-- With render instances, starting from a zero counter: the first output is
the one full clone, all later outputs are instances linking to it. -/
theorem buildItems_RI_zero (src : ℕ) (curveMode : Bool) (invMg : Mtx)
    (a : StackItem) (rest : List StackItem) (f0 : Option ℕ) :
    (buildItems src true curveMode invMg (a :: rest) 0 f0).1 =
      StackNode.clone src (if curveMode then mtxMul invMg a.mg else a.mg) ::
        rest.map (fun it => StackNode.inst (some 0)
          (if curveMode then mtxMul invMg it.mg else it.mg)) := by
  simp [buildItems, buildItems_RI_pos src curveMode invMg rest 1 (some 0) (by omega)]

/-- Claim C1: for every configuration accepted by `configure` with
`baseCount ≥ 1`, the built layout has exactly `min(baseCount, rowCount)`
rows, row `r` (0-indexed) has exactly `baseCount - r` items, no produced row
has `≤ 0` items, and when `rowCount ≥ baseCount` the total item count is the
triangular number `baseCount (baseCount + 1) / 2`. -/
theorem c1_accepted_shape (g : CanStackGenerator) (p : StackParameters)
    (hgood : goodShape g.params g.array) (hb : 1 ≤ p.baseCount)
    (hacc : (g.InitStack p).2 = true) :
    ((g.InitStack p).1).array.length = (min p.baseCount p.rowCount).toNat ∧
    (∀ r, r < ((g.InitStack p).1).array.length →
      ((((g.InitStack p).1).array.getD r []).length = (p.baseCount - (r : ℤ)).toNat ∧
        0 < (((g.InitStack p).1).array.getD r []).length)) ∧
    (p.baseCount ≤ p.rowCount →
      listTotal ((g.InitStack p).1).array =
        p.baseCount.toNat * (p.baseCount.toNat + 1) / 2) := by
  have hshape := initStack_shape g p hgood hacc
  have hlen : ((g.InitStack p).1).array.length = (min p.baseCount p.rowCount).toNat := by
    have h := congrArg List.length hshape
    simpa [shapeList] using h
  refine ⟨hlen, ?_, ?_⟩
  · intro r hr
    have hr' : r < (min p.baseCount p.rowCount).toNat := by omega
    have h1 : (((g.InitStack p).1).array.map List.length).getD r 0 =
        (shapeList p).getD r 0 := by rw [hshape]
    have h2 : (((g.InitStack p).1).array.map List.length).getD r 0 =
        ((((g.InitStack p).1).array.getD r []).length) := by
      rw [List.getD_eq_getElem _ _ (by simpa using hr),
        List.getD_eq_getElem _ _ hr]
      simp
    have h3 : (shapeList p).getD r 0 = (p.baseCount - (r : ℤ)).toNat := by
      rw [List.getD_eq_getElem _ _ (by simp [shapeList]; omega)]
      simp [shapeList]
    have h4 : (((g.InitStack p).1).array.getD r []).length =
        (p.baseCount - (r : ℤ)).toNat := by rw [← h2, h1, h3]
    refine ⟨h4, ?_⟩
    rw [h4]
    have hminle : (min p.baseCount p.rowCount).toNat ≤ p.baseCount.toNat := by
      have : min p.baseCount p.rowCount ≤ p.baseCount := min_le_left _ _
      omega
    omega
  · intro hrc
    have hmin : min p.baseCount p.rowCount = p.baseCount := min_eq_left hrc
    have hsum : listTotal ((g.InitStack p).1).array = (shapeList p).sum := by
      unfold listTotal
      rw [hshape]
    rw [hsum]
    unfold shapeList
    rw [hmin, listRangeMapSum]
    have hcongr : (∑ i in Finset.range p.baseCount.toNat, (p.baseCount - (i : ℤ)).toNat) =
        ∑ i in Finset.range p.baseCount.toNat, (p.baseCount.toNat - i) := by
      apply Finset.sum_congr rfl
      intro i hi
      have : i < p.baseCount.toNat := Finset.mem_range.mp hi
      omega
    rw [hcongr, sumDescRange]

/-- Witness for C1 at a concrete accepted configuration (`p0`, a fresh
generator): base row of 2, 2 rows, 3 items in total. -/
theorem c1_witness :
    goodShape dfltGen.params dfltGen.array ∧ (1 : ℤ) ≤ p0.baseCount ∧
    (dfltGen.InitStack p0).2 = true ∧
    (((dfltGen.InitStack p0).1).array.length = (min p0.baseCount p0.rowCount).toNat ∧
    (∀ r, r < ((dfltGen.InitStack p0).1).array.length →
      ((((dfltGen.InitStack p0).1).array.getD r []).length = (p0.baseCount - (r : ℤ)).toNat ∧
        0 < (((dfltGen.InitStack p0).1).array.getD r []).length)) ∧
    (p0.baseCount ≤ p0.rowCount →
      listTotal ((dfltGen.InitStack p0).1).array =
        p0.baseCount.toNat * (p0.baseCount.toNat + 1) / 2)) := by
  have hgood : goodShape dfltGen.params dfltGen.array := by rfl
  have hb : (1 : ℤ) ≤ p0.baseCount := by decide
  have hacc : (dfltGen.InitStack p0).2 = true := by decide
  exact ⟨hgood, hb, hacc, c1_accepted_shape dfltGen p0 hgood hb hacc⟩

/-- Equal row-length profiles give equal lengths. -/
theorem mapLength_length (l1 l2 : List (List StackItem))
    (h : l1.map List.length = l2.map List.length) : l1.length = l2.length := by
  have := congrArg List.length h
  simpa using this

/-- Equal row-length profiles give equal row lengths at every index. -/
theorem mapLength_getD (l1 l2 : List (List StackItem))
    (h : l1.map List.length = l2.map List.length) (r : ℕ) :
    (l1.getD r []).length = (l2.getD r []).length := by
  by_cases hr : r < l1.length
  · have hr2 : r < l2.length := by rw [← mapLength_length l1 l2 h]; exact hr
    have e1 : (l1.map List.length).getD r 0 = (l1.getD r []).length := by
      rw [List.getD_eq_getElem _ _ (by simpa using hr), List.getD_eq_getElem _ _ hr]
      simp
    have e2 : (l2.map List.length).getD r 0 = (l2.getD r []).length := by
      rw [List.getD_eq_getElem _ _ (by simpa using hr2), List.getD_eq_getElem _ _ hr2]
      simp
    rw [← e1, ← e2, h]
  · have hr2 : ¬ r < l2.length := by rw [← mapLength_length l1 l2 h]; exact hr
    rw [List.getD_eq_default _ _ (by omega), List.getD_eq_default _ _ (by omega)]

/-- Equal row-length profiles give equal row-major prefix totals. -/
theorem mapLength_prefixTotal (l1 l2 : List (List StackItem))
    (h : l1.map List.length = l2.map List.length) (r : ℕ) :
    prefixTotal l1 r = prefixTotal l2 r := by
  unfold prefixTotal
  rw [List.map_take, List.map_take, h]

/-- Both loop bodies, chosen by mode, consume three draws per cell. -/
theorem cellGen_advance (env : Env) (p : StackParameters) :
    drawsAdvance (cellGen env p) := by
  intro r i s j
  cases hbp : p.basePath with
  | none =>
    simp only [cellGen, hbp]
    exact straight_advance env p _ r i s j
  | some sp =>
    simp only [cellGen, hbp]
    exact curve_advance env p sp _ r i s j

/-- A successful fresh `configure` + `generate` produces exactly the loop's
output on the freshly reshaped array, from draw index 0 of the seed's
stream. -/
theorem runFresh_some_array (env : Env) (p : StackParameters) (g' : CanStackGenerator)
    (h : runFresh env p = some g') :
    g'.array = (genRows (cellGen env p) 0
      (resizeRows p.baseCount 0
        (resizeList dfltGen.array (min p.baseCount p.rowCount).toNat []))
      ⟨p.randomSeed, 0⟩).1 := by
  by_cases hacc : (CanStackGenerator.InitStack dfltGen p).2 = true
  · rcases initStack_true_cases dfltGen p hacc with ⟨heq, h1⟩ | ⟨hne, hb, hrc, h1⟩
    · exfalso
      simp only [runFresh, if_pos hacc] at h
      rw [h1, generate_not_init env _ rfl] at h
      simp at h
    · simp only [runFresh, if_pos hacc] at h
      rw [h1] at h
      cases hbp : p.basePath with
      | none =>
        rw [generate_straight env _ rfl hbp] at h
        have hg := Option.some.inj h
        rw [← hg]
        simp only [cellGen, hbp]
        rfl
      | some sp =>
        cases hok : sp.initOk with
        | false =>
          exfalso
          simp only [CanStackGenerator.GenerateStack, hbp, hok] at h
          simp at h
        | true =>
          rw [generate_curve env _ sp rfl hbp hok] at h
          have hg := Option.some.inj h
          rw [← hg]
          simp only [cellGen, hbp]
          rfl
  · exfalso
    simp only [runFresh] at h
    rw [if_neg hacc] at h
    simp at h

/-- Claim C2: two runs of `configure` + `generate` on equal configurations
(all fields equal, including seed and curve) yield identical layouts, and the
per-item draws are consumed in row-major, item-minor order: the cell at row
`r`, item `i` is computed from the three draws starting at stream index
`3 * (number of cells before it)` of the seed's stream, so the seed
determines the layout. -/
theorem c2_determinism_draw_order (env : Env) (p₁ p₂ : StackParameters)
    (hp : p₁ = p₂) :
    runFresh env p₁ = runFresh env p₂ ∧
    (∀ g', runFresh env p₁ = some g' →
      ∀ r i, r < g'.array.length → i < (g'.array.getD r []).length →
        (g'.array.getD r []).getD i dfltItem =
          (cellGen env p₁ r i
            ⟨p₁.randomSeed, 3 * (prefixTotal g'.array r + i)⟩).1) := by
  subst hp
  refine ⟨rfl, ?_⟩
  intro g' hg' r i hr hi
  have harr := runFresh_some_array env p₁ g' hg'
  rw [harr] at hr hi ⊢
  have hshape := genRows_shape (cellGen env p₁)
    (resizeRows p₁.baseCount 0
      (resizeList dfltGen.array (min p₁.baseCount p₁.rowCount).toNat []))
    0 ⟨p₁.randomSeed, 0⟩
  have hrA : r < (resizeRows p₁.baseCount 0
      (resizeList dfltGen.array (min p₁.baseCount p₁.rowCount).toNat [])).length := by
    rw [← mapLength_length _ _ hshape]
    exact hr
  have hiA : i < ((resizeRows p₁.baseCount 0
      (resizeList dfltGen.array (min p₁.baseCount p₁.rowCount).toNat [])).getD r []).length := by
    rw [← mapLength_getD _ _ hshape r]
    exact hi
  rw [genRows_getD (cellGen env p₁) (cellGen_advance env p₁) _ 0 p₁.randomSeed 0 r i hrA hiA]
  have hidx : (0 : ℕ) + 3 * ((((resizeRows p₁.baseCount 0
        (resizeList dfltGen.array (min p₁.baseCount p₁.rowCount).toNat [])).take r).map
          List.length).sum + i) =
      3 * (prefixTotal (genRows (cellGen env p₁)
        0 (resizeRows p₁.baseCount 0
          (resizeList dfltGen.array (min p₁.baseCount p₁.rowCount).toNat []))
        ⟨p₁.randomSeed, 0⟩).1 r + i) := by
    rw [mapLength_prefixTotal _ _ hshape r]
    simp [prefixTotal]
  rw [hidx]
  simp

/-- Witness for C2 at the concrete configuration `p0` under `env0`. -/
theorem c2_witness :
    runFresh env0 p0 = runFresh env0 p0 ∧
    (∀ g', runFresh env0 p0 = some g' →
      ∀ r i, r < g'.array.length → i < (g'.array.getD r []).length →
        (g'.array.getD r []).getD i dfltItem =
          (cellGen env0 p0 r i
            ⟨p0.randomSeed, 3 * (prefixTotal g'.array r + i)⟩).1) :=
  c2_determinism_draw_order env0 p0 p0 rfl

/-- Counterexample to C3 as stated: after a successful `configure` (`p0`), a
failing `configure` with `baseCount = 0` (`pBad`) does not leave the stored
state unchanged — it clears the configured flag and resets the stored
configuration, and a following `generate` fails where it previously
succeeded. -/
theorem c3_counterexample :
    (dfltGen.InitStack p0).2 = true ∧
    ((dfltGen.InitStack p0).1).initialized = true ∧
    (((dfltGen.InitStack p0).1).GenerateStack env0).isSome = true ∧
    (((dfltGen.InitStack p0).1).InitStack pBad).2 = false ∧
    ((((dfltGen.InitStack p0).1).InitStack pBad).1).initialized = false ∧
    StackParameters.eq ((((dfltGen.InitStack p0).1).InitStack pBad).1).params
      ((dfltGen.InitStack p0).1).params = false ∧
    (((((dfltGen.InitStack p0).1).InitStack pBad).1).GenerateStack env0).isSome = false := by
  refine ⟨by decide, by decide, ?_, by decide, by decide, by decide, ?_⟩
  · decide
  · decide

/-- Claim C3 amended: a `configure` call that fails on `baseCount < 1` leaves
the previously built layout array unchanged, but resets the stored
configuration to the defaults and clears the configured flag, so a following
`generate` fails (returns nothing) instead of reproducing the prior
layout. -/
theorem c3_invalid_resets (env : Env) (g : CanStackGenerator) (p : StackParameters)
    (hne : StackParameters.eq p g.params = false) (hb : p.baseCount < 1) :
    (g.InitStack p).2 = false ∧
    ((g.InitStack p).1).array = g.array ∧
    ((g.InitStack p).1).params = defaultParams ∧
    ((g.InitStack p).1).initialized = false ∧
    ((g.InitStack p).1).GenerateStack env = none := by
  rw [initStack_invalid g p hne hb]
  exact ⟨rfl, rfl, rfl, rfl, generate_not_init env _ rfl⟩

/-- Witness for the amended C3 at the concrete failing call `pBad` after a
successful `configure` of `p0`. -/
theorem c3_witness :
    StackParameters.eq pBad ((dfltGen.InitStack p0).1).params = false ∧
    pBad.baseCount < 1 ∧
    ((((dfltGen.InitStack p0).1).InitStack pBad).2 = false ∧
     (((((dfltGen.InitStack p0).1).InitStack pBad).1)).array = ((dfltGen.InitStack p0).1).array ∧
     (((((dfltGen.InitStack p0).1).InitStack pBad).1)).params = defaultParams ∧
     (((((dfltGen.InitStack p0).1).InitStack pBad).1)).initialized = false ∧
     (((((dfltGen.InitStack p0).1).InitStack pBad).1)).GenerateStack env0 = none) :=
  ⟨by decide, by decide,
    c3_invalid_resets env0 ((dfltGen.InitStack p0).1) pBad (by decide) (by decide)⟩

/-- Counterexample to C4 as stated: `p0` and `pC4` differ exactly in the
curve reference (none versus a spline), yet the comparator reports them
equal, and a `configure` with `pC4` after `p0` takes the no-op path — the
stored configuration still has no curve and the call reports success. -/
theorem c4_counterexample :
    StackParameters.eq p0 pC4 = true ∧
    p0.basePath.isSome = false ∧
    pC4.basePath.isSome = true ∧
    (((dfltGen.InitStack p0).1).InitStack pC4).2 = true ∧
    ((((dfltGen.InitStack p0).1).InitStack pC4).1).params.basePath.isSome = false := by
  exact ⟨by decide, by decide, by decide, by decide, by decide⟩

/-- Claim C4 amended: the comparator deciding `configure`'s no-op path is
equality of exactly the seven numeric fields — `baseCount`, `baseLength`,
`rowCount`, `rowHeight`, `randomSeed`, `randomPos`, `randomRot`; the curve
reference (and the jitter amplitudes) are ignored, so a configuration
differing from the stored one only in its curve reference is treated as an
identical configuration. -/
theorem c4_eq_ignores_curve (x1 x2 : StackParameters) :
    (StackParameters.eq x1 x2 = true ↔
      (x1.baseCount = x2.baseCount ∧ x1.baseLength = x2.baseLength ∧
       x1.rowCount = x2.rowCount ∧ x1.rowHeight = x2.rowHeight ∧
       x1.randomSeed = x2.randomSeed ∧ x1.randomPos = x2.randomPos ∧
       x1.randomRot = x2.randomRot)) ∧
    (∀ s : Option Spline, StackParameters.eq { x1 with basePath := s } x1 = true) := by
  constructor
  · exact StackParameters.eq_iff x1 x2
  · intro s
    simp [StackParameters.eq_iff]

/-- Claim C5: in straight mode with zero jitter and zero random rotation,
the generated position of the cell at row `r`, item `i` is exactly
`(0, rowHeight * r, spacing * i + spacing * r * 0.5)` with
`spacing = baseLength / baseCount`. -/
theorem c5_straight_positions (env : Env) (p : StackParameters)
    (hbp : p.basePath = none) (hx : p.randomOffX = 0) (hz : p.randomOffZ = 0)
    (hrot : p.randomRot = 0) (g' : CanStackGenerator)
    (hg' : runFresh env p = some g') :
    ∀ r i, r < g'.array.length → i < (g'.array.getD r []).length →
      ((g'.array.getD r []).getD i dfltItem).mg.off =
        ⟨0, p.rowHeight * (r : ℚ),
          (p.baseLength / (p.baseCount : ℚ)) * (i : ℚ) +
            (p.baseLength / (p.baseCount : ℚ)) * (r : ℚ) * (1 / 2)⟩ := by
  intro r i hr hi
  have harr := runFresh_some_array env p g' hg'
  rw [harr] at hr hi ⊢
  have hshape := genRows_shape (cellGen env p)
    (resizeRows p.baseCount 0
      (resizeList dfltGen.array (min p.baseCount p.rowCount).toNat []))
    0 ⟨p.randomSeed, 0⟩
  have hrA : r < (resizeRows p.baseCount 0
      (resizeList dfltGen.array (min p.baseCount p.rowCount).toNat [])).length := by
    rw [← mapLength_length _ _ hshape]
    exact hr
  have hiA : i < ((resizeRows p.baseCount 0
      (resizeList dfltGen.array (min p.baseCount p.rowCount).toNat [])).getD r []).length := by
    rw [← mapLength_getD _ _ hshape r]
    exact hi
  rw [genRows_getD (cellGen env p) (cellGen_advance env p) _ 0 p.randomSeed 0 r i hrA hiA]
  simp only [cellGen, hbp]
  simp [straightItem, RandomState.get11, hx, hz]

/-- Witness for C5: the concrete straight, jitter-free configuration `p0`
under `env0`. -/
theorem c5_witness :
    p0.basePath = none ∧ p0.randomOffX = 0 ∧ p0.randomOffZ = 0 ∧
    p0.randomRot = 0 ∧ runFresh env0 p0 = some gRun0 ∧
    (∀ r i, r < gRun0.array.length → i < (gRun0.array.getD r []).length →
      ((gRun0.array.getD r []).getD i dfltItem).mg.off =
        ⟨0, p0.rowHeight * (r : ℚ),
          (p0.baseLength / (p0.baseCount : ℚ)) * (i : ℚ) +
            (p0.baseLength / (p0.baseCount : ℚ)) * (r : ℚ) * (1 / 2)⟩) := by
  have hrun : runFresh env0 p0 = some gRun0 := by rfl
  exact ⟨rfl, rfl, rfl, rfl, hrun,
    c5_straight_positions env0 p0 rfl rfl rfl rfl gRun0 hrun⟩

/-- Claim C6 (the division the source performs): the single-can spline
configuration `pC6` is accepted by `configure`, it puts `generate` on the
spline branch, and there the divisor `baseCount - 1` of
`relDistance = 1.0 / (baseCount - 1)` is zero — the division by zero the
claim says is skipped. -/
theorem c6_divisor_zero :
    (dfltGen.InitStack pC6).2 = true ∧
    ((dfltGen.InitStack pC6).1).initialized = true ∧
    ((dfltGen.InitStack pC6).1).params.basePath.isSome = true ∧
    relDistanceDenom ((dfltGen.InitStack pC6).1).params = 0 := by
  have hne : StackParameters.eq pC6 dfltGen.params = false := by decide
  have hreb := initStack_rebuild dfltGen pC6 hne (by decide) (by decide)
  refine ⟨by decide, by decide, by decide, ?_⟩
  rw [hreb]
  norm_num [relDistanceDenom, pC6]

/-- Claim C7: after a successful `configure`, repeating the same `configure`
is a pure no-op that reports success and leaves the whole generator state —
including the freshly reseeded RNG — exactly as it was, so a following
`generate` gives the same result as after a single `configure`. -/
theorem c7_configure_idempotent (env : Env) (g : CanStackGenerator)
    (p : StackParameters) (hacc : (g.InitStack p).2 = true) :
    ((g.InitStack p).1).InitStack p = ((g.InitStack p).1, true) ∧
    ((((g.InitStack p).1).InitStack p).1).GenerateStack env =
      ((g.InitStack p).1).GenerateStack env := by
  have heq1 : StackParameters.eq p ((g.InitStack p).1).params = true := by
    rcases initStack_true_cases g p hacc with ⟨heq, h1⟩ | ⟨-, -, -, h1⟩
    · rw [h1]
      exact heq
    · rw [h1]
      exact StackParameters.eq_refl p
  have hrnd : ((g.InitStack p).1).rnd = RandomState.init p.randomSeed := by
    rcases initStack_true_cases g p hacc with ⟨-, h1⟩ | ⟨-, -, -, h1⟩ <;> rw [h1]
  have hfix : { (g.InitStack p).1 with rnd := RandomState.init p.randomSeed } =
      (g.InitStack p).1 := by
    rw [← hrnd]
  have hpair := initStack_noop ((g.InitStack p).1) p heq1
  rw [hfix] at hpair
  exact ⟨hpair, by rw [hpair]⟩

/-- Witness for C7 at the concrete configuration `p0`. -/
theorem c7_witness :
    (dfltGen.InitStack p0).2 = true ∧
    (((dfltGen.InitStack p0).1).InitStack p0 = ((dfltGen.InitStack p0).1, true) ∧
     ((((dfltGen.InitStack p0).1).InitStack p0).1).GenerateStack env0 =
       ((dfltGen.InitStack p0).1).GenerateStack env0) :=
  ⟨by decide, c7_configure_idempotent env0 dfltGen p0 (by decide)⟩

/-- The assembler creates exactly one output per stack item. -/
theorem buildItems_length (src : ℕ) (useRI curveMode : Bool) (invMg : Mtx)
    (xs : List StackItem) (c : ℕ) (f0 : Option ℕ) :
    (buildItems src useRI curveMode invMg xs c f0).1.length = xs.length := by
  have h := congrArg List.length (buildItems_ml src useRI curveMode invMg xs c f0)
  simpa using h

/-- Claim C8: for a layout of `N` items, assembly with instancing disabled
produces `N` full duplicates of the resolved template; with instancing
enabled it produces exactly one full duplicate — the very first output, the
primary — and `N - 1` lightweight instances that all reference that primary
output (output index 0). -/
theorem c8_instancing (g : CanStackGenerator) (o : TmplObj) (mg : Mtx) (src : ℕ)
    (hres : resolveClone o = some src) :
    (∀ ns, g.BuildStackGeometry o mg false = some ns →
      ns.length = listTotal g.array ∧
      ∀ n ∈ ns, n.isClone = true ∧ n.srcOf = some src) ∧
    (∀ ns, g.BuildStackGeometry o mg true = some ns →
      ns.length = listTotal g.array ∧
      (g.array.flatten ≠ [] → ∃ ml0 tl, ns = StackNode.clone src ml0 :: tl ∧
        tl.length = listTotal g.array - 1 ∧
        ∀ n ∈ tl, n.isClone = false ∧ n.linksTo = some 0)) := by
  have hlenTot : g.array.flatten.length = listTotal g.array := by
    simp [listTotal]
  constructor
  · intro ns hns
    simp only [CanStackGenerator.BuildStackGeometry, hres] at hns
    have hns' := Option.some.inj hns
    rw [← hns', buildRows_join]
    constructor
    · rw [buildItems_length]
      exact hlenTot
    · intro n hn
      rw [buildItems_noRI] at hn
      rcases List.mem_map.mp hn with ⟨it, -, hform⟩
      rw [← hform]
      exact ⟨rfl, rfl⟩
  · intro ns hns
    simp only [CanStackGenerator.BuildStackGeometry, hres] at hns
    have hns' := Option.some.inj hns
    rw [← hns', buildRows_join]
    constructor
    · rw [buildItems_length]
      exact hlenTot
    · intro hne
      rcases hflat : g.array.flatten with _ | ⟨a, rest⟩
      · exact absurd hflat hne
      · rw [buildItems_RI_zero]
        refine ⟨_, _, rfl, ?_, ?_⟩
        · have : rest.length + 1 = listTotal g.array := by
            rw [← hlenTot, hflat]
            simp
          simp
          omega
        · intro n hn
          rcases List.mem_map.mp hn with ⟨it, -, hform⟩
          rw [← hform]
          exact ⟨rfl, rfl⟩

/-- Witness for C8 on the concrete three-item stack `gBuild` with template
`tmpl0`. -/
theorem c8_witness :
    resolveClone tmpl0 = some 7 ∧
    ((∀ ns, gBuild.BuildStackGeometry tmpl0 mtxId false = some ns →
      ns.length = listTotal gBuild.array ∧
      ∀ n ∈ ns, n.isClone = true ∧ n.srcOf = some 7) ∧
    (∀ ns, gBuild.BuildStackGeometry tmpl0 mtxId true = some ns →
      ns.length = listTotal gBuild.array ∧
      (gBuild.array.flatten ≠ [] → ∃ ml0 tl, ns = StackNode.clone 7 ml0 :: tl ∧
        tl.length = listTotal gBuild.array - 1 ∧
        ∀ n ∈ tl, n.isClone = false ∧ n.linksTo = some 0))) :=
  ⟨by decide, c8_instancing gBuild tmpl0 mtxId 7 (by decide)⟩

/-- Claim C9: the assembler applies transforms asymmetrically by mode — with
a curve configured each output's local matrix is
`inverse(generatorGlobalTransform) * itemMatrix` (the stored item matrices
being global), in straight mode the stored item matrix is applied directly;
and in curve mode the generation loop indeed stores item matrices
premultiplied by the spline's global transform. -/
theorem c9_transform_modes (env : Env) (g : CanStackGenerator) (o : TmplObj)
    (mg : Mtx) (ri : Bool) (ns : List StackNode)
    (hbuild : g.BuildStackGeometry o mg ri = some ns) :
    ns.map StackNode.ml = g.array.flatten.map
      (fun it => if g.params.basePath.isSome then mtxMul (mtxInv mg) it.mg
        else it.mg) ∧
    (∀ (p : StackParameters) (s : Spline) (rd : ℚ) (r i : ℕ) (rnd : RandomState),
      ((curveItem env p s rd r i rnd).1).mg =
        mtxMul s.mg (curveItemLocal env p s rd r i
          (RandomState.get11 env rnd).1
          (RandomState.get11 env (RandomState.get11 env rnd).2).1
          (RandomState.get11 env
            (RandomState.get11 env (RandomState.get11 env rnd).2).2).1)) := by
  constructor
  · rcases hres : resolveClone o with _ | src
    · simp only [CanStackGenerator.BuildStackGeometry, hres] at hbuild
      simp at hbuild
    · simp only [CanStackGenerator.BuildStackGeometry, hres] at hbuild
      have hns := Option.some.inj hbuild
      rw [← hns, buildRows_join, buildItems_ml]
  · intro p s rd r i rnd
    rfl

/-- Witness for C9 on the concrete straight-mode assembly of `gBuild`. -/
theorem c9_witness :
    gBuild.BuildStackGeometry tmpl0 mtxId false = some nsBuild ∧
    (nsBuild.map StackNode.ml = gBuild.array.flatten.map
      (fun it => if gBuild.params.basePath.isSome then mtxMul (mtxInv mtxId) it.mg
        else it.mg) ∧
    (∀ (p : StackParameters) (s : Spline) (rd : ℚ) (r i : ℕ) (rnd : RandomState),
      ((curveItem env0 p s rd r i rnd).1).mg =
        mtxMul s.mg (curveItemLocal env0 p s rd r i
          (RandomState.get11 env0 rnd).1
          (RandomState.get11 env0 (RandomState.get11 env0 rnd).2).1
          (RandomState.get11 env0
            (RandomState.get11 env0 (RandomState.get11 env0 rnd).2).2).1))) := by
  have hb : gBuild.BuildStackGeometry tmpl0 mtxId false = some nsBuild := by rfl
  exact ⟨hb, c9_transform_modes env0 gBuild tmpl0 mtxId false nsBuild hb⟩

/-- For every valid spline configuration with at least two base items, the
distance fraction of any grid cell lies within `[0, 1]`: the largest item
index in row `r` is `baseCount - r - 1`, so the half-step stagger never
pushes the fraction past the last item. -/
theorem curveU_bounds (p : StackParameters) (r i : ℕ) (hb : 2 ≤ p.baseCount)
    (hr : r < (min p.baseCount p.rowCount).toNat)
    (hi : i < (p.baseCount - (r : ℤ)).toNat) :
    0 ≤ curveU (1 / relDistanceDenom p) r i ∧
      curveU (1 / relDistanceDenom p) r i ≤ 1 := by
  have hm : min p.baseCount p.rowCount ≤ p.baseCount := min_le_left _ _
  have hrZ : (r : ℤ) < p.baseCount := by omega
  have hiZ : (i : ℤ) + 1 ≤ p.baseCount - (r : ℤ) := by omega
  have hBQ : (2 : ℚ) ≤ (p.baseCount : ℚ) := by exact_mod_cast hb
  have hd : (0 : ℚ) < (p.baseCount : ℚ) - 1 := by linarith
  have hrQ : ((r : ℚ)) < (p.baseCount : ℚ) := by exact_mod_cast hrZ
  have hiQ : ((i : ℚ)) + 1 ≤ (p.baseCount : ℚ) - (r : ℚ) := by exact_mod_cast hiZ
  have hrNonneg : (0 : ℚ) ≤ (r : ℚ) := by positivity
  have hiNonneg : (0 : ℚ) ≤ (i : ℚ) := by positivity
  have hden : relDistanceDenom p = (p.baseCount : ℚ) - 1 := rfl
  have hform : curveU (1 / relDistanceDenom p) r i =
      ((i : ℚ) + (r : ℚ) / 2) / ((p.baseCount : ℚ) - 1) := by
    rw [curveU, hden]
    ring
  rw [hform]
  constructor
  · apply div_nonneg _ (le_of_lt hd)
    linarith
  · rw [div_le_one hd]
    linarith

/-- Counterexample to C10 as stated: there is no valid configuration with
`baseCount ≥ 2` whose cross-row stagger makes the distance fraction
`u = relDistance * i + relDistance * 0.5 * r` of a produced grid cell fall
outside `[0, 1]` — the extrapolation past the curve ends is never
exercised. -/
theorem c10_counterexample :
    ¬ ∃ (p : StackParameters) (r i : ℕ),
      2 ≤ p.baseCount ∧ r < (min p.baseCount p.rowCount).toNat ∧
      i < (p.baseCount - (r : ℤ)).toNat ∧
      (curveU (1 / relDistanceDenom p) r i < 0 ∨
        1 < curveU (1 / relDistanceDenom p) r i) := by
  rintro ⟨p, r, i, hb, hr, hi, hout⟩
  rcases curveU_bounds p r i hb hr hi with ⟨h0, h1⟩
  rcases hout with h | h
  · linarith
  · linarith

/-- Claim C10 amended: for every valid configuration with `baseCount ≥ 2`
and every produced grid cell, the distance fraction handed to the
reparametrizer stays within `[0, 1]`; the stagger never pushes it past the
last item. -/
theorem c10_u_in_range (p : StackParameters) (r i : ℕ) (hb : 2 ≤ p.baseCount)
    (hr : r < (min p.baseCount p.rowCount).toNat)
    (hi : i < (p.baseCount - (r : ℤ)).toNat) :
    0 ≤ curveU (1 / relDistanceDenom p) r i ∧
      curveU (1 / relDistanceDenom p) r i ≤ 1 :=
  curveU_bounds p r i hb hr hi

/-- Witness for the amended C10 at the concrete spline configuration `pC4`
(two base items), cell row 1, item 0. -/
theorem c10_witness :
    (2 : ℤ) ≤ pC4.baseCount ∧
    1 < (min pC4.baseCount pC4.rowCount).toNat ∧
    0 < (pC4.baseCount - ((1 : ℕ) : ℤ)).toNat ∧
    (0 ≤ curveU (1 / relDistanceDenom pC4) 1 0 ∧
      curveU (1 / relDistanceDenom pC4) 1 0 ≤ 1) :=
  ⟨by decide, by decide, by decide,
    c10_u_in_range pC4 1 0 (by decide) (by decide) (by decide)⟩
